import Mathlib

/-!
Verification of the cthaeh ORM data model (cthaeh/models.py).

Rows of the nine tables are modelled as Lean structures carrying the
columns declared in models.py; the store is a record of row lists.
Insert operations check the declared constraints (CHECK constraints,
unique indices / primary keys, foreign keys) and return `Except`,
classifying failures with the specification's error taxonomy
(ConstraintViolation / DuplicateIndex / RangeError); at the SQL layer all
of these surface as IntegrityError, the taxonomy only names which
declared constraint fired.  Binary columns (LargeBinary) are modelled as
lists of bytes, integer columns as `Int` (SQL integers are signed; the
non-negativity CHECK constraints are what rule negative values out).
-/

abbrev Hash32 := List Nat

abbrev Address := List Nat

abbrev Bytes := List Nat

/-- Modelled from the spec: `GENESIS_PARENT_HASH` is imported by models.py
from cthaeh/constants.py, which is not under src/.  The spec treats it as
the distinguished parent-hash value reported for genesis headers
(block_number 0, no stored parent); we model it as the 32-byte zero hash. -/
def GENESIS_PARENT_HASH : Hash32 := List.replicate 32 0

/-- Rows of the `header` table.  `difficulty` is declared LargeBinary(32)
in models.py but carries the CHECK constraint `difficulty >= 0`, which
compares it numerically; we model the numerically-checked value. -/
structure Header where
  hash : Hash32
  is_canonical : Bool
  _detatched_parent_hash : Option Hash32
  _parent_hash : Option Hash32
  uncles_hash : Hash32
  coinbase : Address
  state_root : Hash32
  transaction_root : Hash32
  receipt_root : Hash32
  _bloom : Bytes
  difficulty : Int
  block_number : Int
  gas_limit : Int
  gas_used : Int
  timestamp : Int
  extra_data : Bytes
  nonce : Bytes
deriving DecidableEq

/-- The exception a property getter can raise: the TypeError of the
`parent_hash` getter on a header with two parent hashes. -/
inductive PyError where
  | TypeError
deriving DecidableEq

/-- The `Header.parent_hash` property getter: raises TypeError when both
parent fields are set, otherwise prefers the detached hash, and reports
`GENESIS_PARENT_HASH` for a parentless header at block_number 0. -/
def Header.parent_hash (h : Header) : Except PyError (Option Hash32) :=
  if h._parent_hash ≠ none ∧ h._detatched_parent_hash ≠ none then
    .error .TypeError
  else if h._detatched_parent_hash ≠ none then
    .ok h._detatched_parent_hash
  else if h._parent_hash = none then
    if h.block_number = 0 then .ok (some GENESIS_PARENT_HASH) else .ok none
  else
    .ok h._parent_hash

/-- The `Header.parent_hash` property setter. -/
def Header.set_parent_hash (h : Header) (value : Option Hash32) : Header :=
  if value = some GENESIS_PARENT_HASH ∧ h.block_number = 0 then
    { h with _parent_hash := none }
  else
    { h with _parent_hash := value }

/-- The `Header.is_detatched` property. -/
def Header.is_detatched (h : Header) : Bool :=
  decide (h._parent_hash = none) && decide (h._detatched_parent_hash ≠ none)

/-- The `Header.is_genesis` property.  Python's `and` short-circuits, so
the `parent_hash` getter (which can raise) is only consulted once
`block_number == 0` and `is_canonical` both hold. -/
def Header.is_genesis (h : Header) : Except PyError Bool :=
  if h.block_number = 0 ∧ h.is_canonical then
    match h.parent_hash with
    | .error e => .error e
    | .ok p => .ok (decide (p = some GENESIS_PARENT_HASH))
  else
    .ok false

/-- Modelled from the spec: the intermediate representation
`cthaeh.ir.Header` (cthaeh/ir.py) is not under src/; this structure holds
the fields `Header.from_ir` reads from it.  Per the spec a genesis header
is the block_number-0 header with no parent, so `parent_hash` is optional
and `is_genesis` is the IR-level genesis flag. -/
structure HeaderIR where
  hash : Hash32
  is_canonical : Bool
  parent_hash : Option Hash32
  is_genesis : Bool
  uncles_hash : Hash32
  coinbase : Address
  state_root : Hash32
  transaction_root : Hash32
  receipt_root : Hash32
  bloom : Bytes
  difficulty : Int
  block_number : Int
  gas_limit : Int
  gas_used : Int
  timestamp : Int
  extra_data : Bytes
  nonce : Bytes
deriving DecidableEq

/-- Build a `Header` row from its intermediate representation,
optionally in the detached state (`Header.from_ir`). -/
def Header.from_ir (header : HeaderIR) (is_detatched : Bool) : Header :=
  let parent_hash : Option Hash32 :=
    if is_detatched || header.is_genesis then none else header.parent_hash
  let detatched_parent_hash : Option Hash32 :=
    if is_detatched then header.parent_hash else none
  { hash := header.hash
    is_canonical := header.is_canonical
    _parent_hash := parent_hash
    _detatched_parent_hash := detatched_parent_hash
    uncles_hash := header.uncles_hash
    coinbase := header.coinbase
    state_root := header.state_root
    transaction_root := header.transaction_root
    receipt_root := header.receipt_root
    _bloom := header.bloom
    difficulty := header.difficulty
    block_number := header.block_number
    gas_limit := header.gas_limit
    gas_used := header.gas_used
    timestamp := header.timestamp
    extra_data := header.extra_data
    nonce := header.nonce }

/-- Rows of the `blockuncle` association table. -/
structure BlockUncle where
  idx : Int
  block_header_hash : Hash32
  uncle_hash : Hash32
deriving DecidableEq

/-- Rows of the `block` table. -/
structure Block where
  header_hash : Hash32
deriving DecidableEq

/-- Rows of the `blocktransaction` association table. -/
structure BlockTransaction where
  idx : Int
  block_header_hash : Hash32
  transaction_hash : Hash32
deriving DecidableEq

/-- Rows of the `transaction` table. -/
structure Transaction where
  hash : Hash32
  block_header_hash : Option Hash32
  nonce : Int
  gas_price : Int
  gas : Int
  «to» : Option Address
  value : Bytes
  data : Bytes
  v : Bytes
  r : Bytes
  s : Bytes
  sender : Address
deriving DecidableEq

/-- Rows of the `receipt` table. -/
structure Receipt where
  transaction_hash : Hash32
  block_header_hash : Hash32
  state_root : Hash32
  gas_used : Int
  _bloom : Bytes
deriving DecidableEq

/-- Rows of the `logtopic` association table. -/
structure LogTopic where
  idx : Int
  topic_topic : Hash32
  log_idx : Int
  log_transaction_hash : Hash32
  log_block_header_hash : Hash32
deriving DecidableEq

/-- Rows of the `log` table. -/
structure Log where
  idx : Int
  transaction_hash : Hash32
  block_header_hash : Hash32
  address : Address
  data : Bytes
deriving DecidableEq

/-- Rows of the `topic` table. -/
structure Topic where
  topic : Hash32
deriving DecidableEq

/-- The committed state of the store: one row list per table. -/
structure Store where
  headers : List Header
  blocks : List Block
  transactions : List Transaction
  receipts : List Receipt
  logs : List Log
  topics : List Topic
  blocktransactions : List BlockTransaction
  blockuncles : List BlockUncle
  logtopics : List LogTopic
deriving DecidableEq

/-- The specification's error taxonomy for constraint failures (at the
SQL layer each is an IntegrityError; the constructor names which declared
constraint kind fired). -/
inductive StoreError where
  | ConstraintViolation
  | DuplicateIndex
  | RangeError
deriving DecidableEq

/-- Insert a header row, checking the declared constraints of the
`header` table: `_no_double_parent_hash`, the five non-negativity CHECK
constraints, the primary key on `hash`, and the self-referential foreign
key of `_parent_hash`. -/
def insertHeader (s : Store) (h : Header) : Except StoreError Store :=
  if ¬ (h._parent_hash = none ∨ h._detatched_parent_hash = none) then
    .error .ConstraintViolation
  else if ¬ (0 ≤ h.block_number ∧ 0 ≤ h.gas_limit ∧ 0 ≤ h.gas_used ∧
      0 ≤ h.difficulty ∧ 0 ≤ h.timestamp) then
    .error .ConstraintViolation
  else if ∃ h2 ∈ s.headers, h2.hash = h.hash then
    .error .ConstraintViolation
  else if h._parent_hash = none ∨ ∃ h2 ∈ s.headers, some h2.hash = h._parent_hash then
    .ok { s with headers := s.headers ++ [h] }
  else
    .error .ConstraintViolation

/-- Insert a block row, checking the primary key on `header_hash` and its
foreign key into `header`. -/
def insertBlock (s : Store) (b : Block) : Except StoreError Store :=
  if ∃ b2 ∈ s.blocks, b2.header_hash = b.header_hash then
    .error .ConstraintViolation
  else if ∃ h ∈ s.headers, h.hash = b.header_hash then
    .ok { s with blocks := s.blocks ++ [b] }
  else
    .error .ConstraintViolation

/-- Insert a transaction row, checking the declared constraints of the
`transaction` table.  The CHECK constraints of models.py are
`gas >= 0`, `gas_limit >= 0` and `nonce >= 0`; the transaction table has
no `gas_limit` column (the constraint names a column that does not
exist), and no constraint mentions `gas_price`. -/
def insertTransaction (s : Store) (t : Transaction) : Except StoreError Store :=
  if ¬ (0 ≤ t.gas ∧ 0 ≤ t.nonce) then
    .error .ConstraintViolation
  else if ∃ t2 ∈ s.transactions, t2.hash = t.hash then
    .error .ConstraintViolation
  else if t.block_header_hash = none ∨
      ∃ b ∈ s.blocks, some b.header_hash = t.block_header_hash then
    .ok { s with transactions := s.transactions ++ [t] }
  else
    .error .ConstraintViolation

/-- Insert a receipt row, checking `_gas_used_positive`, the composite
uniqueness of `(transaction_hash, block_header_hash)` and the composite
foreign key into `blocktransaction`. -/
def insertReceipt (s : Store) (r : Receipt) : Except StoreError Store :=
  if ¬ (0 ≤ r.gas_used) then
    .error .ConstraintViolation
  else if ∃ r2 ∈ s.receipts, r2.transaction_hash = r.transaction_hash ∧
      r2.block_header_hash = r.block_header_hash then
    .error .ConstraintViolation
  else if ∃ bt ∈ s.blocktransactions, bt.transaction_hash = r.transaction_hash ∧
      bt.block_header_hash = r.block_header_hash then
    .ok { s with receipts := s.receipts ++ [r] }
  else
    .error .ConstraintViolation

/-- Insert a log row, checking `_idx_positive`, the composite uniqueness
of `(idx, transaction_hash, block_header_hash)` and the composite foreign
key into `receipt`. -/
def insertLog (s : Store) (lg : Log) : Except StoreError Store :=
  if ¬ (0 ≤ lg.idx) then
    .error .ConstraintViolation
  else if ∃ x ∈ s.logs, x.idx = lg.idx ∧ x.transaction_hash = lg.transaction_hash ∧
      x.block_header_hash = lg.block_header_hash then
    .error .ConstraintViolation
  else if ∃ r ∈ s.receipts, r.transaction_hash = lg.transaction_hash ∧
      r.block_header_hash = lg.block_header_hash then
    .ok { s with logs := s.logs ++ [lg] }
  else
    .error .ConstraintViolation

/-- Insert a topic row, checking the primary key on `topic`. -/
def insertTopic (s : Store) (tp : Topic) : Except StoreError Store :=
  if ∃ t2 ∈ s.topics, t2.topic = tp.topic then
    .error .ConstraintViolation
  else
    .ok { s with topics := s.topics ++ [tp] }

/-- Insert a blockuncle association row: the `_idx_positive` CHECK
constraint (RangeError in the spec taxonomy), the unique index on
`(idx, block_header_hash)` (DuplicateIndex), the unique index on
`(block_header_hash, uncle_hash)` and the two foreign keys.  SQLite
evaluates CHECK constraints before updating indices, so the range check
comes first. -/
def insertBlockUncle (s : Store) (bu : BlockUncle) : Except StoreError Store :=
  if ¬ (0 ≤ bu.idx) then
    .error .RangeError
  else if ∃ x ∈ s.blockuncles, x.idx = bu.idx ∧
      x.block_header_hash = bu.block_header_hash then
    .error .DuplicateIndex
  else if ∃ x ∈ s.blockuncles, x.block_header_hash = bu.block_header_hash ∧
      x.uncle_hash = bu.uncle_hash then
    .error .ConstraintViolation
  else if (∃ b ∈ s.blocks, b.header_hash = bu.block_header_hash) ∧
      (∃ h ∈ s.headers, h.hash = bu.uncle_hash) then
    .ok { s with blockuncles := s.blockuncles ++ [bu] }
  else
    .error .ConstraintViolation

/-- Insert a blocktransaction association row: `_idx_positive`
(RangeError), the unique index on `(idx, block_header_hash)`
(DuplicateIndex), the unique index on
`(block_header_hash, transaction_hash)` and the two foreign keys. -/
def insertBlockTransaction (s : Store) (bt : BlockTransaction) :
    Except StoreError Store :=
  if ¬ (0 ≤ bt.idx) then
    .error .RangeError
  else if ∃ x ∈ s.blocktransactions, x.idx = bt.idx ∧
      x.block_header_hash = bt.block_header_hash then
    .error .DuplicateIndex
  else if ∃ x ∈ s.blocktransactions, x.block_header_hash = bt.block_header_hash ∧
      x.transaction_hash = bt.transaction_hash then
    .error .ConstraintViolation
  else if (∃ b ∈ s.blocks, b.header_hash = bt.block_header_hash) ∧
      (∃ t ∈ s.transactions, t.hash = bt.transaction_hash) then
    .ok { s with blocktransactions := s.blocktransactions ++ [bt] }
  else
    .error .ConstraintViolation

/-- Insert a logtopic association row: `_limit_4_topics_per_log`
(`idx >= 0 AND idx <= 3`, RangeError), the unique constraint on
`(idx, log_idx, log_transaction_hash, log_block_header_hash)`
(DuplicateIndex), the composite foreign key into `log` and the foreign
key into `topic`. -/
def insertLogTopic (s : Store) (lt : LogTopic) : Except StoreError Store :=
  if ¬ (0 ≤ lt.idx ∧ lt.idx ≤ 3) then
    .error .RangeError
  else if ∃ x ∈ s.logtopics, x.idx = lt.idx ∧ x.log_idx = lt.log_idx ∧
      x.log_transaction_hash = lt.log_transaction_hash ∧
      x.log_block_header_hash = lt.log_block_header_hash then
    .error .DuplicateIndex
  else if (∃ lg ∈ s.logs, lg.idx = lt.log_idx ∧
      lg.transaction_hash = lt.log_transaction_hash ∧
      lg.block_header_hash = lt.log_block_header_hash) ∧
      (∃ tp ∈ s.topics, tp.topic = lt.topic_topic) then
    .ok { s with logtopics := s.logtopics ++ [lt] }
  else
    .error .ConstraintViolation

/-- The blocktransaction rows associated with a block (the join condition
of the `Block.transactions` relationship). -/
def blockTransactionRows (s : Store) (b : Block) : List BlockTransaction :=
  s.blocktransactions.filter (fun bt => decide (bt.block_header_hash = b.header_hash))

/-- The `Block.transactions` relationship: transactions reached through
the `blocktransaction` secondary table, ordered by `BlockTransaction.idx`. -/
def Block.transactions (s : Store) (b : Block) : List Transaction :=
  ((blockTransactionRows s b).insertionSort (fun x y => x.idx ≤ y.idx)).filterMap
    (fun bt => s.transactions.find? (fun t => decide (t.hash = bt.transaction_hash)))

/-- The blockuncle rows associated with a block (the join condition of
the `Block.uncles` relationship). -/
def blockUncleRows (s : Store) (b : Block) : List BlockUncle :=
  s.blockuncles.filter (fun bu => decide (bu.block_header_hash = b.header_hash))

/-- The `Block.uncles` relationship: uncle headers reached through the
`blockuncle` secondary table, ordered by `BlockUncle.idx`. -/
def Block.uncles (s : Store) (b : Block) : List Header :=
  ((blockUncleRows s b).insertionSort (fun x y => x.idx ≤ y.idx)).filterMap
    (fun bu => s.headers.find? (fun h => decide (h.hash = bu.uncle_hash)))

/-- The logtopic rows associated with a log (the primaryjoin of the
`Log.topics` relationship). -/
def logTopicRows (s : Store) (lg : Log) : List LogTopic :=
  s.logtopics.filter (fun lt => decide (lt.log_idx = lg.idx ∧
    lt.log_transaction_hash = lg.transaction_hash ∧
    lt.log_block_header_hash = lg.block_header_hash))

/-- The `Log.topics` relationship: topics reached through the `logtopic`
secondary table, ordered by `LogTopic.idx`. -/
def Log.topics (s : Store) (lg : Log) : List Topic :=
  ((logTopicRows s lg).insertionSort (fun x y => x.idx ≤ y.idx)).filterMap
    (fun lt => s.topics.find? (fun tp => decide (tp.topic = lt.topic_topic)))

/-- The log rows belonging to a receipt (the foreign-key join of the
`Receipt.logs` relationship). -/
def receiptLogRows (s : Store) (r : Receipt) : List Log :=
  s.logs.filter (fun lg => decide (lg.transaction_hash = r.transaction_hash ∧
    lg.block_header_hash = r.block_header_hash))

/-- The `Receipt.logs` relationship: the logs carrying the receipt's
composite key, ordered by `Log.idx`. -/
def Receipt.logs (s : Store) (r : Receipt) : List Log :=
  (receiptLogRows s r).insertionSort (fun x y => x.idx ≤ y.idx)

/-- The half-open block-number range filter of `query_row_count`:
`Header.block_number > start_at, Header.block_number <= end_at`. -/
def inRange (start_at end_at : Int) (h : Header) : Bool :=
  decide (start_at < h.block_number) && decide (h.block_number ≤ end_at)

/-- The header count of `query_row_count`: canonical headers in range. -/
def num_headers (s : Store) (start_at end_at : Int) : Nat :=
  (s.headers.filter (fun h => inRange start_at end_at h && h.is_canonical)).length

/-- The uncle count of `query_row_count`: blockuncle rows joined to
`block` on `block_header_hash` and to `header` on `header_hash`, filtered
to the range. -/
def num_uncles (s : Store) (start_at end_at : Int) : Nat :=
  ((s.blockuncles.flatMap (fun bu =>
      (s.blocks.filter (fun blk => decide (bu.block_header_hash = blk.header_hash))).flatMap
        (fun blk =>
          (s.headers.filter (fun h => decide (blk.header_hash = h.hash))).map
            (fun h => (bu, blk, h))))).filter
    (fun x => inRange start_at end_at x.2.2)).length

/-- The transaction count of `query_row_count`: transactions joined to
`block` on their direct `block_header_hash` column and to `header`,
filtered to the range. -/
def num_transactions (s : Store) (start_at end_at : Int) : Nat :=
  ((s.transactions.flatMap (fun t =>
      (s.blocks.filter (fun blk => decide (t.block_header_hash = some blk.header_hash))).flatMap
        (fun blk =>
          (s.headers.filter (fun h => decide (blk.header_hash = h.hash))).map
            (fun h => (t, blk, h))))).filter
    (fun x => inRange start_at end_at x.2.2)).length

/-- The log count of `query_row_count`: logs joined to `receipt` on the
composite key, to `transaction` on the receipt's transaction hash, to
`block` on the transaction's `block_header_hash`, and to `header`,
filtered to the range. -/
def num_logs (s : Store) (start_at end_at : Int) : Nat :=
  ((s.logs.flatMap (fun lg =>
      (s.receipts.filter (fun rc => decide (lg.transaction_hash = rc.transaction_hash ∧
          lg.block_header_hash = rc.block_header_hash))).flatMap (fun rc =>
        (s.transactions.filter (fun t => decide (rc.transaction_hash = t.hash))).flatMap
          (fun t =>
            (s.blocks.filter (fun blk => decide (t.block_header_hash = some blk.header_hash))).flatMap
              (fun blk =>
                (s.headers.filter (fun h => decide (blk.header_hash = h.hash))).map
                  (fun h => (lg, rc, t, blk, h))))))).filter
    (fun x => inRange start_at end_at x.2.2.2.2)).length

/-- The topic count of `query_row_count`: logtopic rows joined along the
relationship path `LogTopic.log`, `Log.receipt`, `Receipt.transaction`
(which passes through the `blocktransaction` secondary table),
`Transaction.block`, `Block.header`, filtered to the range. -/
def num_topics (s : Store) (start_at end_at : Int) : Nat :=
  ((s.logtopics.flatMap (fun lt =>
      (s.logs.filter (fun lg => decide (lt.log_idx = lg.idx ∧
          lt.log_transaction_hash = lg.transaction_hash ∧
          lt.log_block_header_hash = lg.block_header_hash))).flatMap (fun lg =>
        (s.receipts.filter (fun rc => decide (lg.transaction_hash = rc.transaction_hash ∧
            lg.block_header_hash = rc.block_header_hash))).flatMap (fun rc =>
          (s.blocktransactions.filter (fun bt => decide (bt.transaction_hash = rc.transaction_hash ∧
              bt.block_header_hash = rc.block_header_hash))).flatMap (fun bt =>
            (s.transactions.filter (fun t => decide (t.hash = bt.transaction_hash))).flatMap
              (fun t =>
                (s.blocks.filter (fun blk => decide (t.block_header_hash = some blk.header_hash))).flatMap
                  (fun blk =>
                    (s.headers.filter (fun h => decide (blk.header_hash = h.hash))).map
                      (fun h => (lt, lg, rc, bt, t, blk, h))))))))).filter
    (fun x => inRange start_at end_at x.2.2.2.2.2.2)).length

/-- The weighted total of `query_row_count` over the half-open interval
`(start_at, end_at]`. -/
def query_row_count (s : Store) (start_at end_at : Int) : Nat :=
  num_headers s start_at end_at * 2 + num_uncles s start_at end_at * 2 +
    num_transactions s start_at end_at * 3 + num_logs s start_at end_at * 2 +
    num_topics s start_at end_at

/-- The claim's header count: canonical headers in the half-open range. -/
def headersInRange (s : Store) (start_at end_at : Int) : Nat :=
  s.headers.countP (fun h => inRange start_at end_at h && h.is_canonical)

/-- The claim's uncle count: blockuncle rows whose block exists and whose
block's header has block_number in the range. -/
def unclesInRange (s : Store) (start_at end_at : Int) : Nat :=
  s.blockuncles.countP (fun bu =>
    s.blocks.any (fun blk => decide (bu.block_header_hash = blk.header_hash) &&
      s.headers.any (fun h => decide (blk.header_hash = h.hash) &&
        inRange start_at end_at h)))

/-- The claim's transaction count: transactions attached to a block whose
header has block_number in the range. -/
def transactionsInRange (s : Store) (start_at end_at : Int) : Nat :=
  s.transactions.countP (fun t =>
    s.blocks.any (fun blk => decide (t.block_header_hash = some blk.header_hash) &&
      s.headers.any (fun h => decide (blk.header_hash = h.hash) &&
        inRange start_at end_at h)))

/-- The log count of the amended claim: logs whose receipt's transaction
is attached (through `Transaction.block_header_hash`) to a block whose
header has block_number in the range.  This is the block the join of
`query_row_count` reaches; it is not the log's own `block_header_hash`,
and the two differ on fork stores (see `logsInRangeByOwnBlock`). -/
def logsInRange (s : Store) (start_at end_at : Int) : Nat :=
  s.logs.countP (fun lg =>
    s.receipts.any (fun rc => decide (lg.transaction_hash = rc.transaction_hash ∧
        lg.block_header_hash = rc.block_header_hash) &&
      s.transactions.any (fun t => decide (rc.transaction_hash = t.hash) &&
        s.blocks.any (fun blk => decide (t.block_header_hash = some blk.header_hash) &&
          s.headers.any (fun h => decide (blk.header_hash = h.hash) &&
            inRange start_at end_at h)))))

/-- The topic count of the amended claim: logtopic rows whose log's
receipt (via its blocktransaction row and the receipt's transaction's
`block_header_hash`) leads to a block whose header has block_number in
the range.  As with `logsInRange`, this is the join path of
`query_row_count`, not the log's own block (see
`topicsInRangeByOwnBlock`). -/
def topicsInRange (s : Store) (start_at end_at : Int) : Nat :=
  s.logtopics.countP (fun lt =>
    s.logs.any (fun lg => decide (lt.log_idx = lg.idx ∧
        lt.log_transaction_hash = lg.transaction_hash ∧
        lt.log_block_header_hash = lg.block_header_hash) &&
      s.receipts.any (fun rc => decide (lg.transaction_hash = rc.transaction_hash ∧
          lg.block_header_hash = rc.block_header_hash) &&
        s.blocktransactions.any (fun bt => decide (bt.transaction_hash = rc.transaction_hash ∧
            bt.block_header_hash = rc.block_header_hash) &&
          s.transactions.any (fun t => decide (t.hash = bt.transaction_hash) &&
            s.blocks.any (fun blk => decide (t.block_header_hash = some blk.header_hash) &&
              s.headers.any (fun h => decide (blk.header_hash = h.hash) &&
                inRange start_at end_at h)))))))

/-- The frozen claim's literal log count: logs whose own
`block_header_hash` names a stored block whose header has block_number in
the range.  The join of `query_row_count` instead reaches the block
through `Transaction.block_header_hash`; the two diverge on fork
stores. -/
def logsInRangeByOwnBlock (s : Store) (start_at end_at : Int) : Nat :=
  s.logs.countP (fun lg =>
    s.blocks.any (fun blk => decide (lg.block_header_hash = blk.header_hash)) &&
    s.headers.any (fun h => decide (lg.block_header_hash = h.hash) &&
      inRange start_at end_at h))

/-- The frozen claim's literal topic count: logtopic rows whose log's own
`block_header_hash` names a stored block whose header has block_number in
the range. -/
def topicsInRangeByOwnBlock (s : Store) (start_at end_at : Int) : Nat :=
  s.logtopics.countP (fun lt =>
    s.logs.any (fun lg => decide (lt.log_idx = lg.idx ∧
        lt.log_transaction_hash = lg.transaction_hash ∧
        lt.log_block_header_hash = lg.block_header_hash) &&
      (s.blocks.any (fun blk => decide (lg.block_header_hash = blk.header_hash)) &&
       s.headers.any (fun h => decide (lg.block_header_hash = h.hash) &&
         inRange start_at end_at h))))

/-- Summing per-row join result sizes collapses the join count to a
`countP` over the driving table. -/
theorem joinCount_top {β γ : Type} (l : List β) (f : β → List γ)
    (c : β → Bool) (hrow : ∀ a ∈ l, (f a).length = if c a then 1 else 0) :
    (l.flatMap f).length = l.countP c := by
  induction l with
  | nil => rfl
  | cons a t ih =>
    rw [List.flatMap_cons, List.length_append,
      hrow a (List.mem_cons_self a t), List.countP_cons,
      ih (fun x hx => hrow x (List.mem_cons_of_mem a hx))]
    omega


/-- A join filter that matches at most one row either matches none (and
`any` is false) or matches exactly one (and that row is the unique
match). -/
theorem filter_singleton_cases {β : Type} (l : List β) (p : β → Bool)
    (hcnt : l.countP p ≤ 1) :
    (l.filter p = [] ∧ l.any p = false) ∨
      ∃ x, l.filter p = [x] ∧ x ∈ l ∧ p x = true ∧
        (∀ y ∈ l, p y = true → y = x) := by
  rcases hf : l.filter p with _ | ⟨x, xs⟩
  · refine Or.inl ⟨rfl, ?_⟩
    rw [List.any_eq_false]
    intro y hy hpy
    have : y ∈ l.filter p := List.mem_filter.2 ⟨hy, hpy⟩
    rw [hf] at this
    exact absurd this (List.not_mem_nil y)
  · have hxs : xs = [] := by
      have hlen : (l.filter p).length ≤ 1 := by
        rw [← List.countP_eq_length_filter]
        exact hcnt
      rw [hf, List.length_cons] at hlen
      exact List.length_eq_zero.1 (by omega)
    subst hxs
    have hxmem : x ∈ l.filter p := by rw [hf]; exact List.mem_cons_self x []
    refine Or.inr ⟨x, rfl, (List.mem_filter.1 hxmem).1, (List.mem_filter.1 hxmem).2, ?_⟩
    intro y hy hpy
    have : y ∈ l.filter p := List.mem_filter.2 ⟨hy, hpy⟩
    rw [hf] at this
    simpa using this

/-- A table whose rows satisfy the join predicate at most once
contributes its filtered continuation at most once. -/
theorem joinCount_step {β γ : Type} (l : List β) (p : β → Bool) (f : β → List γ)
    (c : β → Bool) (hcnt : l.countP p ≤ 1)
    (hrow : ∀ x ∈ l, p x = true → (f x).length = if c x then 1 else 0) :
    ((l.filter p).flatMap f).length = if l.any (fun x => p x && c x) then 1 else 0 := by
  rcases filter_singleton_cases l p hcnt with ⟨hf, hany⟩ | ⟨x, hf, hxl, hpx, honly⟩
  · have hany2 : l.any (fun x => p x && c x) = false := by
      rw [List.any_eq_false] at hany ⊢
      intro y hy
      simp only [Bool.and_eq_true, not_and]
      intro hpy _
      exact hany y hy hpy
    rw [hf, hany2]
    rfl
  · have hany2 : l.any (fun x => p x && c x) = c x := by
      rcases hcx : c x with _ | _
      · rw [List.any_eq_false]
        intro y hy
        simp only [Bool.and_eq_true, not_and]
        intro hpy hcy
        rw [honly y hy hpy, hcx] at hcy
        exact absurd hcy (by simp)
      · rw [List.any_eq_true]
        exact ⟨x, hxl, by rw [hpx, hcx]; rfl⟩
    rw [hf, hany2]
    simpa using hrow x hxl hpx

/-- The innermost join step: the header table filtered by the join key
and mapped into the joined tuple, then filtered by the range predicate. -/
theorem joinCount_base {β γ : Type} (l : List β) (p : β → Bool) (m : β → γ)
    (q : γ → Bool) (hcnt : l.countP p ≤ 1) :
    (((l.filter p).map m).filter q).length =
      if l.any (fun x => p x && q (m x)) then 1 else 0 := by
  rcases filter_singleton_cases l p hcnt with ⟨hf, hany⟩ | ⟨x, hf, hxl, hpx, honly⟩
  · have hany2 : l.any (fun x => p x && q (m x)) = false := by
      rw [List.any_eq_false] at hany ⊢
      intro y hy
      simp only [Bool.and_eq_true, not_and]
      intro hpy _
      exact hany y hy hpy
    rw [hf, hany2]
    rfl
  · have hany2 : l.any (fun x => p x && q (m x)) = q (m x) := by
      rcases hqx : q (m x) with _ | _
      · rw [List.any_eq_false]
        intro y hy
        simp only [Bool.and_eq_true, not_and]
        intro hpy hqy
        rw [honly y hy hpy, hqx] at hqy
        exact absurd hqy (by simp)
      · rw [List.any_eq_true]
        exact ⟨x, hxl, by rw [hpx, hqx]; rfl⟩
    rw [hf, hany2, List.map_cons, List.map_nil]
    rcases hqx : q (m x) with _ | _ <;> simp [List.filter_cons, hqx]

/-- A predicate that pins down the key admits at most one match in a
table whose mapped keys are distinct. -/
theorem countP_le_one_of_nodup_key {β κ : Type} [DecidableEq κ] (l : List β)
    (key : β → κ) (p : β → Bool) (hnd : (l.map key).Nodup)
    (hdet : ∀ x y, p x = true → p y = true → key x = key y) :
    l.countP p ≤ 1 := by
  induction l with
  | nil => simp
  | cons a t ih =>
    rw [List.map_cons, List.nodup_cons] at hnd
    rw [List.countP_cons]
    rcases hpa : p a with _ | _
    · simpa using ih hnd.2
    · have hzero : t.countP p = 0 := by
        rw [List.countP_eq_zero]
        intro y hy hpy
        exact hnd.1 (by
          rw [← hdet y a hpy hpa]
          exact List.mem_map_of_mem key hy)
      simp [hzero]

/-- The header term of `query_row_count` equals the claim's canonical
header count. -/
theorem num_headers_eq (s : Store) (a b : Int) :
    num_headers s a b = headersInRange s a b := by
  unfold num_headers headersInRange
  rw [List.countP_eq_length_filter]

/-- The uncle term of `query_row_count` equals the claim's uncle count,
given distinct block and header keys. -/
theorem num_uncles_eq (s : Store) (a b : Int)
    (hB : (s.blocks.map Block.header_hash).Nodup)
    (hH : (s.headers.map Header.hash).Nodup) :
    num_uncles s a b = unclesInRange s a b := by
  unfold num_uncles unclesInRange
  rw [List.filter_flatMap]
  refine joinCount_top _ _ _ ?_
  intro bu _
  rw [List.filter_flatMap]
  refine joinCount_step _ _ _ _ ?_ ?_
  · refine countP_le_one_of_nodup_key _ Block.header_hash _ hB ?_
    intro x y hx hy
    simp only [decide_eq_true_eq] at hx hy
    rw [← hx, ← hy]
  · intro blk _ _
    refine joinCount_base s.headers _ _ _ ?_
    refine countP_le_one_of_nodup_key _ Header.hash _ hH ?_
    intro x y hx hy
    simp only [decide_eq_true_eq] at hx hy
    rw [← hx, ← hy]

/-- The transaction term of `query_row_count` equals the claim's
transaction count, given distinct block and header keys. -/
theorem num_transactions_eq (s : Store) (a b : Int)
    (hB : (s.blocks.map Block.header_hash).Nodup)
    (hH : (s.headers.map Header.hash).Nodup) :
    num_transactions s a b = transactionsInRange s a b := by
  unfold num_transactions transactionsInRange
  rw [List.filter_flatMap]
  refine joinCount_top _ _ _ ?_
  intro t _
  rw [List.filter_flatMap]
  refine joinCount_step _ _ _ _ ?_ ?_
  · refine countP_le_one_of_nodup_key _ Block.header_hash _ hB ?_
    intro x y hx hy
    simp only [decide_eq_true_eq] at hx hy
    exact Option.some.inj (hx.symm.trans hy)
  · intro blk _ _
    refine joinCount_base s.headers _ _ _ ?_
    refine countP_le_one_of_nodup_key _ Header.hash _ hH ?_
    intro x y hx hy
    simp only [decide_eq_true_eq] at hx hy
    rw [← hx, ← hy]

/-- The log term of `query_row_count` equals the claim's log count, given
distinct receipt, transaction, block and header keys. -/
theorem num_logs_eq (s : Store) (a b : Int)
    (hR : (s.receipts.map (fun rc => (rc.transaction_hash, rc.block_header_hash))).Nodup)
    (hT : (s.transactions.map Transaction.hash).Nodup)
    (hB : (s.blocks.map Block.header_hash).Nodup)
    (hH : (s.headers.map Header.hash).Nodup) :
    num_logs s a b = logsInRange s a b := by
  unfold num_logs logsInRange
  rw [List.filter_flatMap]
  refine joinCount_top _ _ _ ?_
  intro lg _
  rw [List.filter_flatMap]
  refine joinCount_step _ _ _ _ ?_ ?_
  · refine countP_le_one_of_nodup_key _
      (fun rc => (rc.transaction_hash, rc.block_header_hash)) _ hR ?_
    intro x y hx hy
    simp only [decide_eq_true_eq] at hx hy
    show (x.transaction_hash, x.block_header_hash) = (y.transaction_hash, y.block_header_hash)
    rw [← hx.1, ← hx.2, ← hy.1, ← hy.2]
  · intro rc _ _
    rw [List.filter_flatMap]
    refine joinCount_step _ _ _ _ ?_ ?_
    · refine countP_le_one_of_nodup_key _ Transaction.hash _ hT ?_
      intro x y hx hy
      simp only [decide_eq_true_eq] at hx hy
      rw [← hx, ← hy]
    · intro t _ _
      rw [List.filter_flatMap]
      refine joinCount_step _ _ _ _ ?_ ?_
      · refine countP_le_one_of_nodup_key _ Block.header_hash _ hB ?_
        intro x y hx hy
        simp only [decide_eq_true_eq] at hx hy
        exact Option.some.inj (hx.symm.trans hy)
      · intro blk _ _
        refine joinCount_base s.headers _ _ _ ?_
        refine countP_le_one_of_nodup_key _ Header.hash _ hH ?_
        intro x y hx hy
        simp only [decide_eq_true_eq] at hx hy
        rw [← hx, ← hy]

/-- The topic term of `query_row_count` equals the claim's topic count,
given distinct log, receipt, blocktransaction, transaction, block and
header keys. -/
theorem num_topics_eq (s : Store) (a b : Int)
    (hL : (s.logs.map (fun lg => (lg.idx, lg.transaction_hash, lg.block_header_hash))).Nodup)
    (hR : (s.receipts.map (fun rc => (rc.transaction_hash, rc.block_header_hash))).Nodup)
    (hBT : (s.blocktransactions.map
      (fun bt => (bt.transaction_hash, bt.block_header_hash))).Nodup)
    (hT : (s.transactions.map Transaction.hash).Nodup)
    (hB : (s.blocks.map Block.header_hash).Nodup)
    (hH : (s.headers.map Header.hash).Nodup) :
    num_topics s a b = topicsInRange s a b := by
  unfold num_topics topicsInRange
  rw [List.filter_flatMap]
  refine joinCount_top _ _ _ ?_
  intro lt _
  rw [List.filter_flatMap]
  refine joinCount_step _ _ _ _ ?_ ?_
  · refine countP_le_one_of_nodup_key _
      (fun lg => (lg.idx, lg.transaction_hash, lg.block_header_hash)) _ hL ?_
    intro x y hx hy
    simp only [decide_eq_true_eq] at hx hy
    show (x.idx, x.transaction_hash, x.block_header_hash) =
      (y.idx, y.transaction_hash, y.block_header_hash)
    rw [← hx.1, ← hx.2.1, ← hx.2.2, ← hy.1, ← hy.2.1, ← hy.2.2]
  · intro lg _ _
    rw [List.filter_flatMap]
    refine joinCount_step _ _ _ _ ?_ ?_
    · refine countP_le_one_of_nodup_key _
        (fun rc => (rc.transaction_hash, rc.block_header_hash)) _ hR ?_
      intro x y hx hy
      simp only [decide_eq_true_eq] at hx hy
      show (x.transaction_hash, x.block_header_hash) = (y.transaction_hash, y.block_header_hash)
      rw [← hx.1, ← hx.2, ← hy.1, ← hy.2]
    · intro rc _ _
      rw [List.filter_flatMap]
      refine joinCount_step _ _ _ _ ?_ ?_
      · refine countP_le_one_of_nodup_key _
          (fun bt => (bt.transaction_hash, bt.block_header_hash)) _ hBT ?_
        intro x y hx hy
        simp only [decide_eq_true_eq] at hx hy
        show (x.transaction_hash, x.block_header_hash) = (y.transaction_hash, y.block_header_hash)
        rw [hx.1, hx.2, hy.1, hy.2]
      · intro bt _ _
        rw [List.filter_flatMap]
        refine joinCount_step _ _ _ _ ?_ ?_
        · refine countP_le_one_of_nodup_key _ Transaction.hash _ hT ?_
          intro x y hx hy
          simp only [decide_eq_true_eq] at hx hy
          rw [hx, hy]
        · intro t _ _
          rw [List.filter_flatMap]
          refine joinCount_step _ _ _ _ ?_ ?_
          · refine countP_le_one_of_nodup_key _ Block.header_hash _ hB ?_
            intro x y hx hy
            simp only [decide_eq_true_eq] at hx hy
            exact Option.some.inj (hx.symm.trans hy)
          · intro blk _ _
            refine joinCount_base s.headers _ _ _ ?_
            refine countP_le_one_of_nodup_key _ Header.hash _ hH ?_
            intro x y hx hy
            simp only [decide_eq_true_eq] at hx hy
            rw [← hx, ← hy]

/-- A canonical-chain header for the worked example: hash `[n]`, the
given canonicity and block number, minimal remaining payload. -/
def exHeader (n : Nat) (canonical : Bool) (bn : Int) : Header :=
  { hash := [n]
    is_canonical := canonical
    _detatched_parent_hash := none
    _parent_hash := none
    uncles_hash := []
    coinbase := []
    state_root := []
    transaction_root := []
    receipt_root := []
    _bloom := []
    difficulty := 1
    block_number := bn
    gas_limit := 0
    gas_used := 0
    timestamp := 0
    extra_data := []
    nonce := [] }

/-- A transaction attached to block `[5]` for the worked example. -/
def exTransaction (n : Nat) : Transaction :=
  { hash := [n]
    block_header_hash := some [5]
    nonce := 0
    gas_price := 0
    gas := 0
    «to» := none
    value := []
    data := []
    v := []
    r := []
    s := []
    sender := [] }

/-- The worked example of the spec: 10 canonical headers at block_number
1..10, block 5 carrying one uncle and 2 transactions, each transaction
producing 1 log with 1 topic. -/
def exStore : Store :=
  { headers := (List.range 10).map (fun i => exHeader (i + 1) true ((i : Int) + 1)) ++
      [exHeader 100 false 5]
    blocks := (List.range 10).map (fun i => { header_hash := [i + 1] })
    transactions := [exTransaction 201, exTransaction 202]
    receipts :=
      [{ transaction_hash := [201], block_header_hash := [5], state_root := [],
         gas_used := 0, _bloom := [] },
       { transaction_hash := [202], block_header_hash := [5], state_root := [],
         gas_used := 0, _bloom := [] }]
    logs :=
      [{ idx := 0, transaction_hash := [201], block_header_hash := [5],
         address := [], data := [] },
       { idx := 0, transaction_hash := [202], block_header_hash := [5],
         address := [], data := [] }]
    topics := [{ topic := [301] }, { topic := [302] }]
    blocktransactions :=
      [{ idx := 0, block_header_hash := [5], transaction_hash := [201] },
       { idx := 1, block_header_hash := [5], transaction_hash := [202] }]
    blockuncles := [{ idx := 0, block_header_hash := [5], uncle_hash := [100] }]
    logtopics :=
      [{ idx := 0, topic_topic := [301], log_idx := 0,
         log_transaction_hash := [201], log_block_header_hash := [5] },
       { idx := 0, topic_topic := [302], log_idx := 0,
         log_transaction_hash := [202], log_block_header_hash := [5] }] }

/-- A committed fork store: transaction `[10]` is attached to block `[1]`
(header at block_number 1) but is also included in block `[2]` (header at
block_number 2), where its receipt, its log and that log's topic live.
Every declared key, CHECK and foreign-key constraint of the schema
holds. -/
def forkStore : Store :=
  { headers := [exHeader 1 true 1, exHeader 2 true 2]
    blocks := [{ header_hash := [1] }, { header_hash := [2] }]
    transactions := [{ exTransaction 10 with block_header_hash := some [1] }]
    receipts :=
      [{ transaction_hash := [10], block_header_hash := [2], state_root := [],
         gas_used := 0, _bloom := [] }]
    logs :=
      [{ idx := 0, transaction_hash := [10], block_header_hash := [2],
         address := [], data := [] }]
    topics := [{ topic := [30] }]
    blocktransactions :=
      [{ idx := 0, block_header_hash := [1], transaction_hash := [10] },
       { idx := 0, block_header_hash := [2], transaction_hash := [10] }]
    blockuncles := []
    logtopics :=
      [{ idx := 0, topic_topic := [30], log_idx := 0,
         log_transaction_hash := [10], log_block_header_hash := [2] }] }

/-- Counterexample to C1 as stated: the fork store satisfies every
key-distinctness hypothesis, yet over `(1, 2]` the code returns 2 while
the claim's formula — counting logs and topic rows by the log's own
`block_header_hash` — gives 5.  The joins of `query_row_count` reach the
block through `Transaction.block_header_hash` (the transaction's attached
block, here at block_number 1), not through the log's own block (here at
block_number 2). -/
theorem c1_query_row_count_counterexample :
    (forkStore.headers.map Header.hash).Nodup ∧
    (forkStore.blocks.map Block.header_hash).Nodup ∧
    (forkStore.transactions.map Transaction.hash).Nodup ∧
    (forkStore.receipts.map
      (fun rc => (rc.transaction_hash, rc.block_header_hash))).Nodup ∧
    (forkStore.blocktransactions.map
      (fun bt => (bt.transaction_hash, bt.block_header_hash))).Nodup ∧
    (forkStore.logs.map
      (fun lg => (lg.idx, lg.transaction_hash, lg.block_header_hash))).Nodup ∧
    query_row_count forkStore 1 2 = 2 ∧
    headersInRange forkStore 1 2 * 2 + unclesInRange forkStore 1 2 * 2 +
      transactionsInRange forkStore 1 2 * 3 +
      logsInRangeByOwnBlock forkStore 1 2 * 2 +
      topicsInRangeByOwnBlock forkStore 1 2 = 5 ∧
    query_row_count forkStore 1 2 ≠
      headersInRange forkStore 1 2 * 2 + unclesInRange forkStore 1 2 * 2 +
        transactionsInRange forkStore 1 2 * 3 +
        logsInRangeByOwnBlock forkStore 1 2 * 2 +
        topicsInRangeByOwnBlock forkStore 1 2 := by
  decide

/-- C1 amended: over a committed store whose primary/composite keys are
distinct, `query_row_count (start, end]` returns 2 times the canonical
headers in range, plus 2 times the uncle associations whose block is in
range, plus 3 times the transactions whose attached block is in range,
plus 2 times the logs whose receipt's transaction's attached block is in
range, plus the topic associations reached the same way; the log and
topic terms follow the transaction's `block_header_hash` (the code's
join), not the log's own block, the two coinciding off forks.  On the
worked example over `(0, 10]` it returns 34. -/
theorem c1_query_row_count (s : Store) (a b : Int)
    (hH : (s.headers.map Header.hash).Nodup)
    (hB : (s.blocks.map Block.header_hash).Nodup)
    (hT : (s.transactions.map Transaction.hash).Nodup)
    (hR : (s.receipts.map (fun rc => (rc.transaction_hash, rc.block_header_hash))).Nodup)
    (hBT : (s.blocktransactions.map
      (fun bt => (bt.transaction_hash, bt.block_header_hash))).Nodup)
    (hL : (s.logs.map (fun lg => (lg.idx, lg.transaction_hash, lg.block_header_hash))).Nodup) :
    query_row_count s a b =
      headersInRange s a b * 2 + unclesInRange s a b * 2 +
        transactionsInRange s a b * 3 + logsInRange s a b * 2 +
        topicsInRange s a b ∧
    query_row_count exStore 0 10 = 34 := by
  constructor
  · unfold query_row_count
    rw [num_headers_eq, num_uncles_eq s a b hB hH, num_transactions_eq s a b hB hH,
      num_logs_eq s a b hR hT hB hH, num_topics_eq s a b hL hR hBT hT hB hH]
  · decide

/-- Witness for C1: the hypotheses hold on the worked example and the
count over `(0, 10]` is 34. -/
theorem c1_query_row_count_witness : query_row_count exStore 0 10 = 34 :=
  (c1_query_row_count exStore 0 10 (by decide) (by decide) (by decide)
    (by decide) (by decide) (by decide)).2

/-- C2: `is_detatched` holds exactly when the resolved parent is absent
but a detached parent hash is recorded; and `from_ir` with the detached
flag set resolves no parent, records the IR header's parent hash as the
detached hash, and yields a detached header. -/
theorem c2_is_detatched_from_ir (h : Header) (ir : HeaderIR) (p : Hash32)
    (hp : ir.parent_hash = some p) :
    (h.is_detatched = true ↔
      (h._parent_hash = none ∧ h._detatched_parent_hash ≠ none)) ∧
    (Header.from_ir ir true)._parent_hash = none ∧
    (Header.from_ir ir true)._detatched_parent_hash = ir.parent_hash ∧
    (Header.from_ir ir true).is_detatched = true := by
  refine ⟨?_, rfl, rfl, ?_⟩
  · unfold Header.is_detatched
    simp
  · unfold Header.is_detatched Header.from_ir
    simp [hp]

/-- A concrete IR header with a known parent hash. -/
def exIR : HeaderIR :=
  { hash := [9]
    is_canonical := true
    parent_hash := some [7]
    is_genesis := false
    uncles_hash := []
    coinbase := []
    state_root := []
    transaction_root := []
    receipt_root := []
    bloom := []
    difficulty := 1
    block_number := 2
    gas_limit := 0
    gas_used := 0
    timestamp := 0
    extra_data := []
    nonce := [] }

/-- Witness for C2 at a concrete header and IR header. -/
theorem c2_is_detatched_from_ir_witness :
    ((exHeader 1 true 1).is_detatched = true ↔
      ((exHeader 1 true 1)._parent_hash = none ∧
        (exHeader 1 true 1)._detatched_parent_hash ≠ none)) ∧
    (Header.from_ir exIR true)._parent_hash = none ∧
    (Header.from_ir exIR true)._detatched_parent_hash = exIR.parent_hash ∧
    (Header.from_ir exIR true).is_detatched = true :=
  c2_is_detatched_from_ir (exHeader 1 true 1) exIR [7] (by decide)

/-- The empty committed store. -/
def emptyStore : Store :=
  { headers := []
    blocks := []
    transactions := []
    receipts := []
    logs := []
    topics := []
    blocktransactions := []
    blockuncles := []
    logtopics := [] }

/-- A header carrying both a resolved and a detached parent hash. -/
def doubleParentHeader : Header :=
  { exHeader 50 true 3 with _parent_hash := some [1], _detatched_parent_hash := some [2] }

/-- C3: inserting a header that carries both a resolved and a detached
parent hash is rejected with ConstraintViolation before any mutation: the
insert never returns a store, so no row for the header persists. -/
theorem c3_double_parent_rejected (s : Store) (h : Header)
    (hp : h._parent_hash ≠ none) (hd : h._detatched_parent_hash ≠ none) :
    insertHeader s h = .error .ConstraintViolation ∧
      ∀ s2, insertHeader s h ≠ .ok s2 := by
  have he : insertHeader s h = .error .ConstraintViolation := by
    unfold insertHeader
    rw [if_pos (not_or.mpr ⟨hp, hd⟩)]
  exact ⟨he, fun s2 hok => by rw [he] at hok; exact Except.noConfusion hok⟩

/-- Witness for C3 at a concrete double-parent header. -/
theorem c3_double_parent_rejected_witness :
    insertHeader emptyStore doubleParentHeader = .error .ConstraintViolation :=
  (c3_double_parent_rejected emptyStore doubleParentHeader (by decide) (by decide)).1

/-- A canonical block-number-0 header whose detached parent hash happens
to equal `GENESIS_PARENT_HASH`. -/
def genesisMarkedDetachedHeader : Header :=
  { exHeader 60 true 0 with _detatched_parent_hash := some GENESIS_PARENT_HASH }

/-- Counterexample to C6 as stated: this header records a detached parent
hash (so it does not satisfy "neither a resolved parent nor a detached
parent hash"), yet `is_genesis` reports true, because the `parent_hash`
property returns the recorded detached hash, which equals
`GENESIS_PARENT_HASH`. -/
theorem c6_is_genesis_counterexample :
    Header.is_genesis genesisMarkedDetachedHeader = .ok true ∧
      ¬ (genesisMarkedDetachedHeader.block_number = 0 ∧
        genesisMarkedDetachedHeader.is_canonical = true ∧
        genesisMarkedDetachedHeader._parent_hash = none ∧
        genesisMarkedDetachedHeader._detatched_parent_hash = none) := by
  refine ⟨rfl, ?_⟩
  decide

/-- C6 amended: provided neither recorded parent hash equals the genesis
marker itself, `is_genesis` holds exactly when block_number is 0, the
header is canonical, and neither a resolved nor a detached parent hash is
recorded. -/
theorem c6_is_genesis_amended (h : Header)
    (hp : h._parent_hash ≠ some GENESIS_PARENT_HASH)
    (hd : h._detatched_parent_hash ≠ some GENESIS_PARENT_HASH) :
    Header.is_genesis h = .ok true ↔
      (h.block_number = 0 ∧ h.is_canonical = true ∧
        h._parent_hash = none ∧ h._detatched_parent_hash = none) := by
  unfold Header.is_genesis Header.parent_hash
  rcases hpp : h._parent_hash with _ | pv <;>
    rcases hdd : h._detatched_parent_hash with _ | dv <;>
      by_cases h0 : h.block_number = 0 <;>
        by_cases hc : h.is_canonical = true <;>
          simp_all

/-- Witness for C6 amended at a genuine genesis header. -/
theorem c6_is_genesis_amended_witness :
    Header.is_genesis (exHeader 61 true 0) = .ok true ↔
      ((exHeader 61 true 0).block_number = 0 ∧
        (exHeader 61 true 0).is_canonical = true ∧
        (exHeader 61 true 0)._parent_hash = none ∧
        (exHeader 61 true 0)._detatched_parent_hash = none) :=
  c6_is_genesis_amended (exHeader 61 true 0) (by decide) (by decide)

/-- C9: for a block-number-0 header with neither parent field recorded,
the `parent_hash` getter reports `GENESIS_PARENT_HASH`; assigning
`GENESIS_PARENT_HASH` through the setter stores no resolved parent, and
the getter still reports `GENESIS_PARENT_HASH` afterwards. -/
theorem c9_genesis_parent_hash_roundtrip (h : Header)
    (hbn : h.block_number = 0) (hp : h._parent_hash = none)
    (hd : h._detatched_parent_hash = none) :
    Header.parent_hash h = .ok (some GENESIS_PARENT_HASH) ∧
    (h.set_parent_hash (some GENESIS_PARENT_HASH))._parent_hash = none ∧
    Header.parent_hash (h.set_parent_hash (some GENESIS_PARENT_HASH)) =
      .ok (some GENESIS_PARENT_HASH) := by
  unfold Header.parent_hash Header.set_parent_hash
  simp [hbn, hp, hd]

/-- Witness for C9 at a concrete genesis header. -/
theorem c9_genesis_parent_hash_roundtrip_witness :
    Header.parent_hash (exHeader 62 true 0) = .ok (some GENESIS_PARENT_HASH) ∧
    ((exHeader 62 true 0).set_parent_hash (some GENESIS_PARENT_HASH))._parent_hash = none ∧
    Header.parent_hash ((exHeader 62 true 0).set_parent_hash (some GENESIS_PARENT_HASH)) =
      .ok (some GENESIS_PARENT_HASH) :=
  c9_genesis_parent_hash_roundtrip (exHeader 62 true 0) (by decide) (by decide) (by decide)

/-- A transaction carrying a negative gas_price (all checked fields
non-negative). -/
def negGasPriceTransaction : Transaction :=
  { exTransaction 77 with gas_price := -1, block_header_hash := none }

/-- Counterexample to C7 as stated: no declared constraint of the
`transaction` table mentions `gas_price`, so a transaction whose
`gas_price` is -1 inserts successfully and its row persists. -/
theorem c7_gas_price_counterexample :
    negGasPriceTransaction.gas_price = -1 ∧
    insertTransaction emptyStore negGasPriceTransaction =
      .ok { emptyStore with transactions := [negGasPriceTransaction] } ∧
    negGasPriceTransaction ∈
      ({ emptyStore with transactions := [negGasPriceTransaction] } : Store).transactions := by
  refine ⟨rfl, rfl, ?_⟩
  simp

/-- C7 amended: the non-negativity CHECK constraints cover Header
block_number, gas_limit, gas_used, difficulty and timestamp, Transaction
nonce and gas (but not gas_price), and Receipt gas_used: a negative value
in any covered field is rejected with ConstraintViolation, and a
successful insert implies the covered fields of the stored row are
non-negative. -/
theorem c7_nonneg_amended :
    (∀ (s : Store) (h : Header), (h.block_number < 0 ∨ h.gas_limit < 0 ∨
        h.gas_used < 0 ∨ h.difficulty < 0 ∨ h.timestamp < 0) →
      insertHeader s h = .error .ConstraintViolation) ∧
    (∀ (s : Store) (t : Transaction), (t.nonce < 0 ∨ t.gas < 0) →
      insertTransaction s t = .error .ConstraintViolation) ∧
    (∀ (s : Store) (rc : Receipt), rc.gas_used < 0 →
      insertReceipt s rc = .error .ConstraintViolation) ∧
    (∀ (s : Store) (h : Header) (s2 : Store), insertHeader s h = .ok s2 →
      0 ≤ h.block_number ∧ 0 ≤ h.gas_limit ∧ 0 ≤ h.gas_used ∧
        0 ≤ h.difficulty ∧ 0 ≤ h.timestamp) ∧
    (∀ (s : Store) (t : Transaction) (s2 : Store), insertTransaction s t = .ok s2 →
      0 ≤ t.gas ∧ 0 ≤ t.nonce) ∧
    (∀ (s : Store) (rc : Receipt) (s2 : Store), insertReceipt s rc = .ok s2 →
      0 ≤ rc.gas_used) := by
  refine ⟨?_, ?_, ?_, ?_, ?_, ?_⟩
  · intro s h hneg
    have hcond : ¬ (0 ≤ h.block_number ∧ 0 ≤ h.gas_limit ∧ 0 ≤ h.gas_used ∧
        0 ≤ h.difficulty ∧ 0 ≤ h.timestamp) := by
      rcases hneg with h5 | h5 | h5 | h5 | h5 <;> intro hc <;> omega
    unfold insertHeader
    by_cases h1 : ¬ (h._parent_hash = none ∨ h._detatched_parent_hash = none)
    · rw [if_pos h1]
    · rw [if_neg h1, if_pos hcond]
  · intro s t hneg
    have hcond : ¬ (0 ≤ t.gas ∧ 0 ≤ t.nonce) := by
      rcases hneg with h5 | h5 <;> intro hc <;> omega
    unfold insertTransaction
    rw [if_pos hcond]
  · intro s rc hneg
    unfold insertReceipt
    rw [if_pos (by omega : ¬ (0 ≤ rc.gas_used))]
  · intro s h s2 hok
    unfold insertHeader at hok
    by_cases h2 : 0 ≤ h.block_number ∧ 0 ≤ h.gas_limit ∧ 0 ≤ h.gas_used ∧
        0 ≤ h.difficulty ∧ 0 ≤ h.timestamp
    · exact h2
    · exfalso
      by_cases h1 : ¬ (h._parent_hash = none ∨ h._detatched_parent_hash = none)
      · rw [if_pos h1] at hok
        exact Except.noConfusion hok
      · rw [if_neg h1, if_pos h2] at hok
        exact Except.noConfusion hok
  · intro s t s2 hok
    unfold insertTransaction at hok
    by_cases h1 : 0 ≤ t.gas ∧ 0 ≤ t.nonce
    · exact h1
    · rw [if_pos h1] at hok
      exact Except.noConfusion hok
  · intro s rc s2 hok
    unfold insertReceipt at hok
    by_cases h1 : 0 ≤ rc.gas_used
    · exact h1
    · rw [if_pos h1] at hok
      exact Except.noConfusion hok

/-- A receipt with negative gas_used. -/
def negGasUsedReceipt : Receipt :=
  { transaction_hash := [72]
    block_header_hash := [5]
    state_root := []
    gas_used := -3
    _bloom := [] }

/-- Witness for C7 amended at concrete negative-valued rows. -/
theorem c7_nonneg_amended_witness :
    insertHeader emptyStore { exHeader 70 true 1 with gas_used := -5 } =
      .error .ConstraintViolation ∧
    insertTransaction emptyStore { exTransaction 71 with nonce := -1 } =
      .error .ConstraintViolation ∧
    insertReceipt emptyStore negGasUsedReceipt = .error .ConstraintViolation :=
  ⟨c7_nonneg_amended.1 emptyStore _ (by decide),
   c7_nonneg_amended.2.1 emptyStore _ (by decide),
   c7_nonneg_amended.2.2.1 emptyStore _ (by decide)⟩

/-- A receipt insert succeeds when gas_used is non-negative, the
composite key is fresh, and the blocktransaction row exists. -/
theorem insertReceipt_ok (s : Store) (rc : Receipt) (hg : 0 ≤ rc.gas_used)
    (hfresh : ¬ ∃ rx ∈ s.receipts, rx.transaction_hash = rc.transaction_hash ∧
      rx.block_header_hash = rc.block_header_hash)
    (hbt : ∃ bt ∈ s.blocktransactions, bt.transaction_hash = rc.transaction_hash ∧
      bt.block_header_hash = rc.block_header_hash) :
    insertReceipt s rc = .ok { s with receipts := s.receipts ++ [rc] } := by
  unfold insertReceipt
  rw [if_neg (not_not_intro hg), if_neg hfresh, if_pos hbt]

/-- A receipt insert whose composite key is already present fails with
ConstraintViolation. -/
theorem insertReceipt_dup (s : Store) (rc : Receipt)
    (hdup : ∃ rx ∈ s.receipts, rx.transaction_hash = rc.transaction_hash ∧
      rx.block_header_hash = rc.block_header_hash) :
    insertReceipt s rc = .error .ConstraintViolation := by
  unfold insertReceipt
  by_cases hg : 0 ≤ rc.gas_used
  · rw [if_neg (not_not_intro hg), if_pos hdup]
  · rw [if_pos hg]

/-- C8: two receipts sharing a transaction hash but naming different
blocks (the same transaction on two forks) can both be stored, while a
second receipt with an identical (transaction_hash, block_header_hash)
pair is rejected. -/
theorem c8_receipt_composite_key (s : Store) (r1 r2 r3 : Receipt)
    (htx : r1.transaction_hash = r2.transaction_hash)
    (hbh : r1.block_header_hash ≠ r2.block_header_hash)
    (hg1 : 0 ≤ r1.gas_used) (hg2 : 0 ≤ r2.gas_used)
    (hbt1 : ∃ bt ∈ s.blocktransactions, bt.transaction_hash = r1.transaction_hash ∧
      bt.block_header_hash = r1.block_header_hash)
    (hbt2 : ∃ bt ∈ s.blocktransactions, bt.transaction_hash = r2.transaction_hash ∧
      bt.block_header_hash = r2.block_header_hash)
    (hfresh1 : ¬ ∃ rx ∈ s.receipts, rx.transaction_hash = r1.transaction_hash ∧
      rx.block_header_hash = r1.block_header_hash)
    (hfresh2 : ¬ ∃ rx ∈ s.receipts, rx.transaction_hash = r2.transaction_hash ∧
      rx.block_header_hash = r2.block_header_hash)
    (hr3tx : r3.transaction_hash = r1.transaction_hash)
    (hr3bh : r3.block_header_hash = r1.block_header_hash) :
    insertReceipt s r1 = .ok { s with receipts := s.receipts ++ [r1] } ∧
    insertReceipt { s with receipts := s.receipts ++ [r1] } r2 =
      .ok { s with receipts := s.receipts ++ [r1] ++ [r2] } ∧
    r1 ∈ (s.receipts ++ [r1] ++ [r2]) ∧ r2 ∈ (s.receipts ++ [r1] ++ [r2]) ∧
    insertReceipt { s with receipts := s.receipts ++ [r1] ++ [r2] } r3 =
      .error .ConstraintViolation := by
  refine ⟨insertReceipt_ok s r1 hg1 hfresh1 hbt1, ?_, by simp, by simp, ?_⟩
  · refine insertReceipt_ok _ r2 hg2 ?_ hbt2
    rintro ⟨rx, hmem, hpair⟩
    rcases List.mem_append.1 hmem with hmem2 | hmem2
    · exact hfresh2 ⟨rx, hmem2, hpair⟩
    · have : rx = r1 := by simpa using hmem2
      subst this
      exact hbh hpair.2
  · refine insertReceipt_dup _ r3 ⟨r1, ?_, hr3tx.symm, hr3bh.symm⟩
    simp

/-- A store holding the blocktransaction rows of one transaction included
on two forks. -/
def c8Store : Store :=
  { emptyStore with blocktransactions :=
      [{ idx := 0, block_header_hash := [2], transaction_hash := [1] },
       { idx := 0, block_header_hash := [3], transaction_hash := [1] }] }

/-- The fork-A receipt of transaction `[1]`. -/
def c8r1 : Receipt :=
  { transaction_hash := [1]
    block_header_hash := [2]
    state_root := []
    gas_used := 0
    _bloom := [] }

/-- The fork-B receipt of transaction `[1]`. -/
def c8r2 : Receipt :=
  { transaction_hash := [1]
    block_header_hash := [3]
    state_root := []
    gas_used := 0
    _bloom := [] }

/-- Witness for C8: both fork receipts store, the duplicate is rejected. -/
theorem c8_receipt_composite_key_witness :
    insertReceipt c8Store c8r1 =
      .ok { c8Store with receipts := c8Store.receipts ++ [c8r1] } ∧
    insertReceipt { c8Store with receipts := c8Store.receipts ++ [c8r1] } c8r2 =
      .ok { c8Store with receipts := c8Store.receipts ++ [c8r1] ++ [c8r2] } ∧
    insertReceipt { c8Store with receipts := c8Store.receipts ++ [c8r1] ++ [c8r2] } c8r1 =
      .error .ConstraintViolation := by
  have h := c8_receipt_composite_key c8Store c8r1 c8r2 c8r1 rfl (by decide)
    (by decide) (by decide) (by decide) (by decide) (by decide) (by decide) rfl rfl
  exact ⟨h.1, h.2.1, h.2.2.2.2⟩

/-- C5: ordered-association adds fail with RangeError on a negative index
(and, for logtopic, on an index above 3), fail with DuplicateIndex when
the index is already used under the same parent, and succeed on a fresh
in-range index; in particular logtopic index 4 fails with RangeError and
indices 0..3 succeed when fresh. -/
theorem c5_ordered_association_errors :
    (∀ (s : Store) (bt : BlockTransaction), bt.idx < 0 →
      insertBlockTransaction s bt = .error .RangeError) ∧
    (∀ (s : Store) (bu : BlockUncle), bu.idx < 0 →
      insertBlockUncle s bu = .error .RangeError) ∧
    (∀ (s : Store) (lt : LogTopic), lt.idx < 0 ∨ 3 < lt.idx →
      insertLogTopic s lt = .error .RangeError) ∧
    (∀ (s : Store) (lt : LogTopic), lt.idx = 4 →
      insertLogTopic s lt = .error .RangeError) ∧
    (∀ (s : Store) (bt : BlockTransaction), 0 ≤ bt.idx →
      (∃ x ∈ s.blocktransactions, x.idx = bt.idx ∧
        x.block_header_hash = bt.block_header_hash) →
      insertBlockTransaction s bt = .error .DuplicateIndex) ∧
    (∀ (s : Store) (bu : BlockUncle), 0 ≤ bu.idx →
      (∃ x ∈ s.blockuncles, x.idx = bu.idx ∧
        x.block_header_hash = bu.block_header_hash) →
      insertBlockUncle s bu = .error .DuplicateIndex) ∧
    (∀ (s : Store) (lt : LogTopic), 0 ≤ lt.idx → lt.idx ≤ 3 →
      (∃ x ∈ s.logtopics, x.idx = lt.idx ∧ x.log_idx = lt.log_idx ∧
        x.log_transaction_hash = lt.log_transaction_hash ∧
        x.log_block_header_hash = lt.log_block_header_hash) →
      insertLogTopic s lt = .error .DuplicateIndex) ∧
    (∀ (s : Store) (bt : BlockTransaction), 0 ≤ bt.idx →
      ¬ (∃ x ∈ s.blocktransactions, x.idx = bt.idx ∧
        x.block_header_hash = bt.block_header_hash) →
      ¬ (∃ x ∈ s.blocktransactions, x.block_header_hash = bt.block_header_hash ∧
        x.transaction_hash = bt.transaction_hash) →
      (∃ b ∈ s.blocks, b.header_hash = bt.block_header_hash) →
      (∃ t ∈ s.transactions, t.hash = bt.transaction_hash) →
      insertBlockTransaction s bt =
        .ok { s with blocktransactions := s.blocktransactions ++ [bt] }) ∧
    (∀ (s : Store) (bu : BlockUncle), 0 ≤ bu.idx →
      ¬ (∃ x ∈ s.blockuncles, x.idx = bu.idx ∧
        x.block_header_hash = bu.block_header_hash) →
      ¬ (∃ x ∈ s.blockuncles, x.block_header_hash = bu.block_header_hash ∧
        x.uncle_hash = bu.uncle_hash) →
      (∃ b ∈ s.blocks, b.header_hash = bu.block_header_hash) →
      (∃ h ∈ s.headers, h.hash = bu.uncle_hash) →
      insertBlockUncle s bu =
        .ok { s with blockuncles := s.blockuncles ++ [bu] }) ∧
    (∀ (s : Store) (lt : LogTopic), (lt.idx = 0 ∨ lt.idx = 1 ∨ lt.idx = 2 ∨ lt.idx = 3) →
      ¬ (∃ x ∈ s.logtopics, x.idx = lt.idx ∧ x.log_idx = lt.log_idx ∧
        x.log_transaction_hash = lt.log_transaction_hash ∧
        x.log_block_header_hash = lt.log_block_header_hash) →
      (∃ lg ∈ s.logs, lg.idx = lt.log_idx ∧
        lg.transaction_hash = lt.log_transaction_hash ∧
        lg.block_header_hash = lt.log_block_header_hash) →
      (∃ tp ∈ s.topics, tp.topic = lt.topic_topic) →
      insertLogTopic s lt = .ok { s with logtopics := s.logtopics ++ [lt] }) := by
  refine ⟨?_, ?_, ?_, ?_, ?_, ?_, ?_, ?_, ?_, ?_⟩
  · intro s bt hneg
    unfold insertBlockTransaction
    rw [if_pos (by omega : ¬ (0 ≤ bt.idx))]
  · intro s bu hneg
    unfold insertBlockUncle
    rw [if_pos (by omega : ¬ (0 ≤ bu.idx))]
  · intro s lt hout
    unfold insertLogTopic
    rw [if_pos (by rcases hout with h | h <;> intro hc <;> omega :
      ¬ (0 ≤ lt.idx ∧ lt.idx ≤ 3))]
  · intro s lt h4
    unfold insertLogTopic
    rw [if_pos (by intro hc; omega : ¬ (0 ≤ lt.idx ∧ lt.idx ≤ 3))]
  · intro s bt h0 hdup
    unfold insertBlockTransaction
    rw [if_neg (not_not_intro h0), if_pos hdup]
  · intro s bu h0 hdup
    unfold insertBlockUncle
    rw [if_neg (not_not_intro h0), if_pos hdup]
  · intro s lt h0 h3 hdup
    unfold insertLogTopic
    rw [if_neg (not_not_intro ⟨h0, h3⟩), if_pos hdup]
  · intro s bt h0 hd1 hd2 hfk1 hfk2
    unfold insertBlockTransaction
    rw [if_neg (not_not_intro h0), if_neg hd1, if_neg hd2, if_pos ⟨hfk1, hfk2⟩]
  · intro s bu h0 hd1 hd2 hfk1 hfk2
    unfold insertBlockUncle
    rw [if_neg (not_not_intro h0), if_neg hd1, if_neg hd2, if_pos ⟨hfk1, hfk2⟩]
  · intro s lt hin hdup hfk1 hfk2
    unfold insertLogTopic
    rw [if_neg (not_not_intro (by rcases hin with h | h | h | h <;> omega :
      0 ≤ lt.idx ∧ lt.idx ≤ 3)), if_neg hdup, if_pos ⟨hfk1, hfk2⟩]

/-- Witness for C5: each error and success case exercised on the worked
example store. -/
theorem c5_ordered_association_errors_witness :
    insertBlockTransaction exStore
      { idx := -1, block_header_hash := [5], transaction_hash := [201] } =
      .error .RangeError ∧
    insertBlockUncle exStore
      { idx := -2, block_header_hash := [5], uncle_hash := [100] } =
      .error .RangeError ∧
    insertLogTopic exStore
      { idx := 4, topic_topic := [301], log_idx := 0,
        log_transaction_hash := [201], log_block_header_hash := [5] } =
      .error .RangeError ∧
    insertBlockTransaction exStore
      { idx := 0, block_header_hash := [5], transaction_hash := [202] } =
      .error .DuplicateIndex ∧
    insertBlockUncle exStore
      { idx := 0, block_header_hash := [5], uncle_hash := [1] } =
      .error .DuplicateIndex ∧
    insertLogTopic exStore
      { idx := 0, topic_topic := [302], log_idx := 0,
        log_transaction_hash := [201], log_block_header_hash := [5] } =
      .error .DuplicateIndex ∧
    insertLogTopic exStore
      { idx := 1, topic_topic := [301], log_idx := 0,
        log_transaction_hash := [201], log_block_header_hash := [5] } =
      .ok { exStore with logtopics := exStore.logtopics ++
        [{ idx := 1, topic_topic := [301], log_idx := 0,
           log_transaction_hash := [201], log_block_header_hash := [5] }] } :=
  ⟨c5_ordered_association_errors.1 exStore _ (by decide),
   c5_ordered_association_errors.2.1 exStore _ (by decide),
   c5_ordered_association_errors.2.2.1 exStore _ (by decide),
   c5_ordered_association_errors.2.2.2.2.1 exStore _ (by decide) (by decide),
   c5_ordered_association_errors.2.2.2.2.2.1 exStore _ (by decide) (by decide),
   c5_ordered_association_errors.2.2.2.2.2.2.1 exStore _ (by decide) (by decide) (by decide),
   c5_ordered_association_errors.2.2.2.2.2.2.2.2.2 exStore _ (by decide) (by decide)
     (by decide) (by decide)⟩

/-- Insertion sort by an integer key yields a weakly ascending list. -/
theorem insertionSort_pairwise_le {β : Type} (key : β → Int) (l : List β) :
    List.Pairwise (fun x y => key x ≤ key y)
      (l.insertionSort (fun x y => key x ≤ key y)) := by
  haveI : IsTotal β (fun x y => key x ≤ key y) :=
    ⟨fun a b => Int.le_total (key a) (key b)⟩
  haveI : IsTrans β (fun x y => key x ≤ key y) :=
    ⟨fun a b c hab hbc => le_trans hab hbc⟩
  exact List.sorted_insertionSort _ l

/-- With pairwise-distinct keys, insertion sort is strictly ascending. -/
theorem insertionSort_pairwise_lt {β : Type} (key : β → Int) (l : List β)
    (hnd : (l.map key).Nodup) :
    List.Pairwise (fun x y => key x < key y)
      (l.insertionSort (fun x y => key x ≤ key y)) := by
  have hperm : (l.insertionSort (fun x y => key x ≤ key y)).Perm l :=
    List.perm_insertionSort _ l
  have hnd2 : ((l.insertionSort (fun x y => key x ≤ key y)).map key).Nodup :=
    ((hperm.map key).nodup_iff).mpr hnd
  have hne : List.Pairwise (fun x y => key x ≠ key y)
      (l.insertionSort (fun x y => key x ≤ key y)) := List.pairwise_map.mp hnd2
  exact ((insertionSort_pairwise_le key l).and hne).imp
    (fun h => lt_of_le_of_ne h.1 h.2)

/-- Two strictly key-ascending lists that are permutations of each other
are equal. -/
theorem sorted_lt_perm_eq {β : Type} (key : β → Int) {l1 l2 : List β}
    (hperm : l1.Perm l2)
    (h1 : List.Pairwise (fun x y => key x < key y) l1)
    (h2 : List.Pairwise (fun x y => key x < key y) l2) : l1 = l2 := by
  have hanti : ∀ a b : β, (key a < key b ∨ a = b) → (key b < key a ∨ b = a) → a = b := by
    intro a b hab hba
    rcases hab with h | h
    · rcases hba with h3 | h3
      · omega
      · exact h3.symm
    · exact h
  haveI : IsAntisymm β (fun x y => key x < key y ∨ x = y) := ⟨hanti⟩
  have hs1 : List.Sorted (fun x y => key x < key y ∨ x = y) l1 :=
    h1.imp fun h => Or.inl h
  have hs2 : List.Sorted (fun x y => key x < key y ∨ x = y) l2 :=
    h2.imp fun h => Or.inl h
  exact List.eq_of_perm_of_sorted hperm hs1 hs2

/-- Insertion sort by a duplicate-free key does not depend on the input
order: every permutation sorts to the same list. -/
theorem insertionSort_perm_invariant {β : Type} (key : β → Int) {l1 l2 : List β}
    (hperm : l1.Perm l2) (hnd : (l2.map key).Nodup) :
    l1.insertionSort (fun x y => key x ≤ key y) =
      l2.insertionSort (fun x y => key x ≤ key y) := by
  have hnd1 : (l1.map key).Nodup := ((hperm.map key).nodup_iff).mpr hnd
  refine sorted_lt_perm_eq key ?_ (insertionSort_pairwise_lt key l1 hnd1)
    (insertionSort_pairwise_lt key l2 hnd)
  exact ((List.perm_insertionSort _ l1).trans hperm).trans
    (List.perm_insertionSort _ l2).symm

/-- In a table with duplicate-free keys, `find?` by key returns exactly
the member carrying that key. -/
theorem find?_key_unique {β κ : Type} [DecidableEq κ] (l : List β) (key : β → κ)
    (hnd : (l.map key).Nodup) (x : β) (hx : x ∈ l) (k : κ) (hk : key x = k) :
    l.find? (fun y => decide (key y = k)) = some x := by
  induction l with
  | nil => exact absurd hx (List.not_mem_nil x)
  | cons a t ih =>
    rw [List.map_cons, List.nodup_cons] at hnd
    by_cases ha : key a = k
    · have hax : a = x := by
        rcases List.mem_cons.1 hx with h | h
        · exact h.symm
        · exact absurd (by rw [ha, ← hk]; exact List.mem_map_of_mem key h) hnd.1
      rw [List.find?_cons_of_pos _ (by simpa using ha), hax]
    · have hxt : x ∈ t := by
        rcases List.mem_cons.1 hx with h | h
        · exact absurd (by rw [← h]; exact hk) ha
        · exact h
      rw [List.find?_cons_of_neg _ (by simpa using ha)]
      exact ih hnd.2 hxt

/-- A `filterMap` by an everywhere-successful lookup preserves length. -/
theorem length_filterMap_of_isSome {β γ : Type} (l : List β) (f : β → Option γ)
    (h : ∀ x ∈ l, (f x).isSome) : (l.filterMap f).length = l.length := by
  induction l with
  | nil => rfl
  | cons a t ih =>
    rcases hfa : f a with _ | v
    · have hsome := h a (List.mem_cons_self a t)
      rw [hfa] at hsome
      exact absurd hsome (by simp)
    · rw [List.filterMap_cons_some hfa, List.length_cons, List.length_cons,
        ih (fun x hx => h x (List.mem_cons_of_mem a hx))]

/-- The generic contract of the ordered secondary-table relationships:
with duplicate-free ordering indices, duplicate-free child keys, and
every association resolving to a stored child, the query returns one
child per association row, exactly the referenced children, in strictly
ascending stored-index order, independently of the order in which the
association rows were stored. -/
theorem orderedChildren_spec {β γ κ : Type} [DecidableEq κ]
    (assocs : List β) (children : List γ) (aidx : β → Int)
    (akey : β → κ) (ckey : γ → κ)
    (hnd : (assocs.map aidx).Nodup)
    (hck : (children.map ckey).Nodup)
    (hfk : ∀ a ∈ assocs, ∃ c ∈ children, ckey c = akey a) :
    ((assocs.insertionSort (fun x y => aidx x ≤ aidx y)).filterMap
        (fun a => children.find? (fun c => decide (ckey c = akey a)))).length =
      assocs.length ∧
    (∀ c, c ∈ (assocs.insertionSort (fun x y => aidx x ≤ aidx y)).filterMap
        (fun a => children.find? (fun c => decide (ckey c = akey a))) ↔
      (c ∈ children ∧ ∃ a ∈ assocs, akey a = ckey c)) ∧
    List.Pairwise (fun x y => aidx x < aidx y)
      (assocs.insertionSort (fun x y => aidx x ≤ aidx y)) ∧
    (∀ assocs2 : List β, assocs2.Perm assocs →
      assocs2.insertionSort (fun x y => aidx x ≤ aidx y) =
        assocs.insertionSort (fun x y => aidx x ≤ aidx y)) := by
  have hperm : (assocs.insertionSort (fun x y => aidx x ≤ aidx y)).Perm assocs :=
    List.perm_insertionSort _ assocs
  refine ⟨?_, ?_, insertionSort_pairwise_lt aidx assocs hnd, ?_⟩
  · rw [length_filterMap_of_isSome, hperm.length_eq]
    intro a ha
    obtain ⟨c, hc, hkey⟩ := hfk a (hperm.subset ha)
    rw [List.find?_isSome]
    exact ⟨c, hc, by simpa using hkey⟩
  · intro c
    rw [List.mem_filterMap]
    constructor
    · rintro ⟨a, ha, hfind⟩
      refine ⟨List.mem_of_find?_eq_some hfind, a, hperm.subset ha, ?_⟩
      have := List.find?_some hfind
      simp only [decide_eq_true_eq] at this
      exact this.symm
    · rintro ⟨hc, a, ha, hkey⟩
      exact ⟨a, hperm.mem_iff.mpr ha,
        find?_key_unique children ckey hck c hc (akey a) hkey.symm⟩
  · intro assocs2 hp2
    exact insertionSort_perm_invariant aidx hp2 hnd

/-- C4: for each ordered-children relationship (transactions of a block,
uncles of a block, topics of a log), when the association rows under the
parent carry distinct indices and every referenced child is stored
(with duplicate-free child keys), the query returns one child per
association row, exactly the referenced children, listed by strictly
ascending stored index (the stored association rows are sorted, never
resequenced), regardless of the order in which the rows were stored. -/
theorem c4_ordered_children (s : Store) (b : Block) (lg : Log)
    (hbt : ((blockTransactionRows s b).map BlockTransaction.idx).Nodup)
    (htx : (s.transactions.map Transaction.hash).Nodup)
    (hfkt : ∀ a ∈ blockTransactionRows s b,
      ∃ c ∈ s.transactions, c.hash = a.transaction_hash)
    (hbu : ((blockUncleRows s b).map BlockUncle.idx).Nodup)
    (hhd : (s.headers.map Header.hash).Nodup)
    (hfku : ∀ a ∈ blockUncleRows s b, ∃ c ∈ s.headers, c.hash = a.uncle_hash)
    (hlt : ((logTopicRows s lg).map LogTopic.idx).Nodup)
    (htp : (s.topics.map Topic.topic).Nodup)
    (hfkl : ∀ a ∈ logTopicRows s lg, ∃ c ∈ s.topics, c.topic = a.topic_topic) :
    ((Block.transactions s b).length = (blockTransactionRows s b).length ∧
     (∀ c, c ∈ Block.transactions s b ↔ (c ∈ s.transactions ∧
        ∃ a ∈ blockTransactionRows s b, a.transaction_hash = c.hash)) ∧
     List.Pairwise (fun x y => x.idx < y.idx)
       ((blockTransactionRows s b).insertionSort (fun x y => x.idx ≤ y.idx)) ∧
     (∀ s2 : Store, s2.transactions = s.transactions →
        (blockTransactionRows s2 b).Perm (blockTransactionRows s b) →
        Block.transactions s2 b = Block.transactions s b)) ∧
    ((Block.uncles s b).length = (blockUncleRows s b).length ∧
     (∀ c, c ∈ Block.uncles s b ↔ (c ∈ s.headers ∧
        ∃ a ∈ blockUncleRows s b, a.uncle_hash = c.hash)) ∧
     List.Pairwise (fun x y => x.idx < y.idx)
       ((blockUncleRows s b).insertionSort (fun x y => x.idx ≤ y.idx)) ∧
     (∀ s2 : Store, s2.headers = s.headers →
        (blockUncleRows s2 b).Perm (blockUncleRows s b) →
        Block.uncles s2 b = Block.uncles s b)) ∧
    ((Log.topics s lg).length = (logTopicRows s lg).length ∧
     (∀ c, c ∈ Log.topics s lg ↔ (c ∈ s.topics ∧
        ∃ a ∈ logTopicRows s lg, a.topic_topic = c.topic)) ∧
     List.Pairwise (fun x y => x.idx < y.idx)
       ((logTopicRows s lg).insertionSort (fun x y => x.idx ≤ y.idx)) ∧
     (∀ s2 : Store, s2.topics = s.topics →
        (logTopicRows s2 lg).Perm (logTopicRows s lg) →
        Log.topics s2 lg = Log.topics s lg)) := by
  have ht := orderedChildren_spec (blockTransactionRows s b) s.transactions
    BlockTransaction.idx BlockTransaction.transaction_hash Transaction.hash hbt htx hfkt
  have hu := orderedChildren_spec (blockUncleRows s b) s.headers
    BlockUncle.idx BlockUncle.uncle_hash Header.hash hbu hhd hfku
  have hl := orderedChildren_spec (logTopicRows s lg) s.topics
    LogTopic.idx LogTopic.topic_topic Topic.topic hlt htp hfkl
  refine ⟨⟨ht.1, ht.2.1, ht.2.2.1, ?_⟩, ⟨hu.1, hu.2.1, hu.2.2.1, ?_⟩,
    ⟨hl.1, hl.2.1, hl.2.2.1, ?_⟩⟩
  · intro s2 hst hperm2
    unfold Block.transactions
    rw [hst, ht.2.2.2 (blockTransactionRows s2 b) hperm2]
  · intro s2 hst hperm2
    unfold Block.uncles
    rw [hst, hu.2.2.2 (blockUncleRows s2 b) hperm2]
  · intro s2 hst hperm2
    unfold Log.topics
    rw [hst, hl.2.2.2 (logTopicRows s2 lg) hperm2]

/-- The block of header `[5]` in the worked example. -/
def exBlock5 : Block := { header_hash := [5] }

/-- The first log of the worked example. -/
def exLog : Log :=
  { idx := 0
    transaction_hash := [201]
    block_header_hash := [5]
    address := []
    data := [] }

/-- Witness for C4 on the worked example store. -/
theorem c4_ordered_children_witness :
    (Block.transactions exStore exBlock5).length =
      (blockTransactionRows exStore exBlock5).length ∧
    (Block.uncles exStore exBlock5).length =
      (blockUncleRows exStore exBlock5).length ∧
    (Log.topics exStore exLog).length = (logTopicRows exStore exLog).length := by
  have h := c4_ordered_children exStore exBlock5 exLog (by decide) (by decide)
    (by decide) (by decide) (by decide) (by decide) (by decide) (by decide) (by decide)
  exact ⟨h.1.1, h.2.1.1, h.2.2.1⟩

/-- C10: the logs collection of a receipt contains exactly the stored
logs carrying the receipt's composite key, in strictly ascending `idx`
order, independently of the order in which the log rows were stored. -/
theorem c10_receipt_logs (s : Store) (r : Receipt)
    (hnd : ((receiptLogRows s r).map Log.idx).Nodup) :
    (∀ lg, lg ∈ Receipt.logs s r ↔ (lg ∈ s.logs ∧
      lg.transaction_hash = r.transaction_hash ∧
      lg.block_header_hash = r.block_header_hash)) ∧
    List.Pairwise (fun x y => x.idx < y.idx) (Receipt.logs s r) ∧
    (∀ s2 : Store, (receiptLogRows s2 r).Perm (receiptLogRows s r) →
      Receipt.logs s2 r = Receipt.logs s r) := by
  refine ⟨?_, insertionSort_pairwise_lt Log.idx (receiptLogRows s r) hnd, ?_⟩
  · intro lg
    unfold Receipt.logs
    rw [(List.perm_insertionSort _ (receiptLogRows s r)).mem_iff]
    unfold receiptLogRows
    rw [List.mem_filter]
    simp only [decide_eq_true_eq]
  · intro s2 hperm2
    unfold Receipt.logs
    exact insertionSort_perm_invariant Log.idx hperm2 hnd

/-- The fork-A receipt of the worked example. -/
def exReceipt : Receipt :=
  { transaction_hash := [201]
    block_header_hash := [5]
    state_root := []
    gas_used := 0
    _bloom := [] }

/-- Witness for C10 on the worked example store. -/
theorem c10_receipt_logs_witness :
    List.Pairwise (fun x y => x.idx < y.idx) (Receipt.logs exStore exReceipt) :=
  (c10_receipt_logs exStore exReceipt (by decide)).2.1
